import Mathlib

/-!
Shallow embedding of the paddleocr_cli core (Go) in Lean 4:
the configuration resolver (`internal/config/config.go`) and the OCR
client / result model (`internal/ocr`, package ocr).

External effects (filesystem, HTTP transport, JSON/YAML codecs of third
party libraries) are made explicit: each function takes the outcomes of
its external calls as an environment value, and the Go control flow over
those outcomes is translated branch by branch.
-/

namespace PaddleOCR

/-! ## Configuration data model (config.go) -/

/-- Go `PaddleOCRConfig` struct: `ServerURL`, `AccessToken`. -/
structure PaddleOCRConfig where
  serverURL : String
  accessToken : String
deriving DecidableEq, Repr

/-- Go `Config` struct: single field `PaddleOCR`. -/
structure Config where
  paddleOCR : PaddleOCRConfig
deriving DecidableEq, Repr

/-- Go `New()` returns the zero value: all string fields empty. -/
def Config.New : Config :=
  { paddleOCR := { serverURL := "", accessToken := "" } }

/-- Go `(c *Config) IsConfigured()`: both fields non-empty. -/
def Config.IsConfigured (c : Config) : Bool :=
  c.paddleOCR.serverURL ≠ "" && c.paddleOCR.accessToken ≠ ""

/-- Constant `ConfigFilename`. -/
def ConfigFilename : String := ".paddleocr_cli.yaml"

/-- Constant `UserConfigDir`. -/
def UserConfigDir : String := ".config/paddleocr_cli"

/-- Constant `UserConfigFile`. -/
def UserConfigFile : String := "config.yaml"

/-- Go `filepath.Join` on two already-clean absolute/relative segments. -/
def joinPath (a b : String) : String := a ++ "/" ++ b

/-! ## YAML documents

Modelled from the spec: the persisted config file is a "YAML-equivalent
structured text, single top-level key `paddleocr`, with `server_url` and
`access_token` string fields".  The third-party `gopkg.in/yaml.v3` codec
is not part of this repository; we model a YAML document as a structured
tree and the codec as the structural encoding/decoding the spec
describes, so a stored file is the tree `yamlMarshal` produced. -/

inductive YamlValue where
  | str (s : String)
  | map (entries : List (String × YamlValue))

/-- Lookup of a key in a YAML mapping (first match). -/
def lookupKey (k : String) : List (String × YamlValue) → Option YamlValue
  | [] => none
  | (k', v) :: rest => if k' = k then some v else lookupKey k rest

/-- Modelled from the spec: `yaml.Marshal` of a `Config` value produces the
single top-level key `paddleocr` holding the two string fields. -/
def yamlMarshal (c : Config) : YamlValue :=
  .map [("paddleocr",
    .map [("server_url", .str c.paddleOCR.serverURL),
          ("access_token", .str c.paddleOCR.accessToken)])]

/-- Modelled from the spec: `yaml.Unmarshal` into a `Config`.  A missing
key leaves the zero value in place; a scalar where a mapping is expected
(or a mapping where a string is expected) is a parse error (`none`). -/
def yamlUnmarshal (v : YamlValue) : Option Config :=
  match v with
  | .str _ => none
  | .map entries =>
    match lookupKey "paddleocr" entries with
    | none => some Config.New
    | some (.str _) => none
    | some (.map pentries) =>
      let getStr (k : String) : Option String :=
        match lookupKey k pentries with
        | none => some ""
        | some (.str s) => some s
        | some (.map _) => none
      match getStr "server_url", getStr "access_token" with
      | some su, some at' => some { paddleOCR := { serverURL := su, accessToken := at' } }
      | _, _ => none

/-! ## Filesystem view

The outcomes of the OS calls `os.Getwd`, `GetProjectRoot` (the upward
walk for a `.claude/` marker), `os.UserHomeDir`, and the contents of the
files on disk (`os.Stat` succeeds exactly when a file is present). -/

structure FS where
  /-- Go `os.Getwd`: `none` models the error case. -/
  cwd : Option String
  /-- Go `GetProjectRoot()`: `""` when no project root was found. -/
  projectRoot : String
  /-- Go `os.UserHomeDir`: `none` models the error case. -/
  home : Option String
  /-- File contents by path; `none` = file does not exist. -/
  files : String → Option YamlValue

/-- Go `os.Stat(path)` succeeds. -/
def FS.fileExists (fs : FS) (path : String) : Bool :=
  (fs.files path).isSome

/-- Write (or overwrite) a file. -/
def FS.write (fs : FS) (path : String) (v : YamlValue) : FS :=
  { fs with files := fun q => if q = path then some v else fs.files q }

/-- Return the first path of the list that exists, or `""` (the final
loop of `FindConfig`). -/
def firstExisting (fs : FS) : List String → String
  | [] => ""
  | p :: ps => if fs.fileExists p then p else firstExisting fs ps

/-- Go `FindConfig()`: builds the search path list (current directory,
project root when found, user config directory) and returns the first
existing path, else `""`. -/
def FindConfig (fs : FS) : String :=
  let searchPaths : List String :=
    (match fs.cwd with
     | some cwd => [joinPath cwd ConfigFilename]
     | none => []) ++
    (if fs.projectRoot ≠ "" then [joinPath fs.projectRoot ConfigFilename] else []) ++
    (match fs.home with
     | some home => [joinPath (joinPath home UserConfigDir) UserConfigFile]
     | none => [])
  firstExisting fs searchPaths

/-- Errors surfaced by the config resolver. -/
inductive CfgError where
  /-- Go `os.ErrNotExist`. -/
  | notFound
  /-- malformed YAML (`yaml.Unmarshal` error). -/
  | parseError
  /-- any other OS error (`os.Getwd` / `os.UserHomeDir` failure). -/
  | osError
deriving DecidableEq, Repr

/-- Go `Load(configPath)`: empty path means search the default locations;
no path found is the normal empty-config outcome; a path whose file does
not exist also yields the empty config (`os.IsNotExist` branch); a file
that exists is YAML-decoded, and a decode failure propagates. -/
def Load (configPath : String) (fs : FS) : Except CfgError Config :=
  let path := if configPath = "" then FindConfig fs else configPath
  if path = "" then .ok Config.New
  else
    match fs.files path with
    | none => .ok Config.New
    | some doc =>
      match yamlUnmarshal doc with
      | none => .error .parseError
      | some c => .ok c

/-- Go `Save(config, configPath)`: empty path targets the user config file
(failing if the home directory is unavailable); the YAML encoding of the
config is written at the resolved path.  Directory creation and the
write itself are modelled as always succeeding (a writable path). -/
def Save (config : Config) (configPath : String) (fs : FS) : Except CfgError FS :=
  if configPath = "" then
    match fs.home with
    | none => .error .osError
    | some home =>
      .ok (fs.write (joinPath (joinPath home UserConfigDir) UserConfigFile)
        (yamlMarshal config))
  else
    .ok (fs.write configPath (yamlMarshal config))

/-- Go `GetSavePath(scope)`: `"local"` → cwd; `"project"` → project root or
`os.ErrNotExist`; any other scope falls to the `default` branch → user
config path. -/
def GetSavePath (scope : String) (fs : FS) : Except CfgError String :=
  if scope = "local" then
    match fs.cwd with
    | none => .error .osError
    | some cwd => .ok (joinPath cwd ConfigFilename)
  else if scope = "project" then
    if fs.projectRoot = "" then .error .notFound
    else .ok (joinPath fs.projectRoot ConfigFilename)
  else
    match fs.home with
    | none => .error .osError
    | some home => .ok (joinPath (joinPath home UserConfigDir) UserConfigFile)

/-! ## File classifier / encoder (package ocr) -/

/-- Go `FileType`: `FileTypePDF = 0`, `FileTypeImage = 1`. -/
inductive FileType where
  | pdf
  | image
deriving DecidableEq, Repr

/-- Wire value of a `FileType` (`int(getFileType(path))`). -/
def FileType.toWire : FileType → Nat
  | .pdf => 0
  | .image => 1

/-- The scan of Go `filepath.Ext`: walk the path backwards until a path
separator; on the first `.` return the suffix from it (handed over here
already accumulated), else no extension. -/
def extScan : List Char → List Char → Option (List Char)
  | [], _ => none
  | c :: rest, acc =>
    if c = '/' then none
    else if c = '.' then some (c :: acc)
    else extScan rest (c :: acc)

/-- Go `filepath.Ext(path)`: the suffix beginning at the final dot in the
final slash-separated element of path, empty if there is no dot. -/
def filepathExt (path : String) : String :=
  match extScan path.data.reverse [] with
  | none => ""
  | some cs => ⟨cs⟩

/-- Go `strings.ToLower` restricted to ASCII case mapping (the only
characters the comparisons below distinguish). -/
def stringsToLower (s : String) : String :=
  ⟨s.data.map Char.toLower⟩

/-- Go `getFileType(filePath)`: the `switch` on the lowercased extension. -/
def getFileType (filePath : String) : FileType :=
  match stringsToLower (filepathExt filePath) with
  | ".pdf" => .pdf
  | ".png" | ".jpg" | ".jpeg" | ".bmp" | ".tiff" | ".tif" | ".webp" => .image
  | _ => .image

/-! ## Result model (package ocr) -/

/-- Go `OCRResult`: the result for a single page. -/
structure OCRResult where
  pageIndex : Nat
  markdown : String
  images : List (String × String)
deriving DecidableEq, Repr

/-- Go `DocumentOCRResult`: the result for an entire document.  The Go
`omitempty` optional strings are empty strings when absent. -/
structure DocumentOCRResult where
  success : Bool
  pages : List OCRResult
  errorMessage : String
  logId : String
deriving DecidableEq, Repr

/-- Go `strings.Join(elems, sep)`: empty for no elements, else the first
element followed by `sep`-prefixed copies of the rest. -/
def stringsJoin (elems : List String) (sep : String) : String :=
  match elems with
  | [] => ""
  | x :: xs => xs.foldl (fun b s => b ++ sep ++ s) x

/-- Go `(r *DocumentOCRResult) FullMarkdown()`: collect each page's
markdown and join with the fixed separator. -/
def FullMarkdown (r : DocumentOCRResult) : String :=
  stringsJoin (r.pages.map (fun page => page.markdown)) "\n\n---\n\n"

/-! ## OCR client -/

/-- Go `Client`: holds the immutable configuration. -/
structure Client where
  config : Config
deriving DecidableEq, Repr

/-- Go `(c *Client) IsConfigured()`. -/
def Client.IsConfigured (c : Client) : Bool :=
  c.config.IsConfigured

/-- Go `strings.TrimRight(s, "/")`. -/
def trimRightSlash (s : String) : String :=
  ⟨(s.data.reverse.dropWhile (fun c => c = '/')).reverse⟩

/-- Go `(c *Client) ServerURL()`. -/
def Client.ServerURL (c : Client) : String :=
  trimRightSlash c.config.paddleOCR.serverURL

/-- Go `OCROptions`.  The timeout only selects the HTTP client deadline and
does not otherwise enter the result, so it is kept as a plain number of
nanoseconds (Go `time.Duration`). -/
structure OCROptions where
  useDocOrientationClassify : Bool
  useDocUnwarping : Bool
  useChartRecognition : Bool
  timeout : Int
deriving DecidableEq, Repr

/-- Go `markdown` object of one `layoutParsingResults` entry of the
response envelope; `images` is `none` when absent or JSON null (a nil Go
map). -/
structure MarkdownBlock where
  text : String
  images : Option (List (String × String))
deriving DecidableEq, Repr

/-- The decoded response envelope of the layout-parsing endpoint. -/
structure Envelope where
  logId : String
  errorCode : Int
  errorMsg : String
  layoutParsingResults : List MarkdownBlock
deriving DecidableEq, Repr

/-- An HTTP response as the client observes it: status line and the
outcome of reading the body (`io.ReadAll`). -/
structure HttpResponse where
  statusCode : Nat
  status : String
  body : Except String String
deriving Repr

/-- Outcomes of the external calls one `OCRFile` invocation makes, in
program order.  `Except.error` carries the error text that Go formats
into the message (`%v`). -/
structure OCREnv where
  /-- Go `os.Stat(filePath)` does not report not-exist. -/
  fileExists : Bool
  /-- Go `os.ReadFile` inside `encodeFile` (the base64 transform of the
  data cannot fail and the encoded bytes never enter the result). -/
  readFile : Except String String
  /-- Go `json.Marshal(payload)`. -/
  marshal : Except String Unit
  /-- Go `http.NewRequest`. -/
  newRequest : Except String Unit
  /-- Go `client.Do(req)`: transport error or a response. -/
  http : Except String HttpResponse
  /-- Go `json.Unmarshal` of a 200 body into the envelope struct. -/
  parse : String → Except String Envelope

/-- The page list built from `layoutParsingResults`: index `i` becomes
`PageIndex`, `markdown.text` the text, and a nil `images` map is
replaced by an empty one. -/
def buildPages (results : List MarkdownBlock) : List OCRResult :=
  results.enum.map (fun p =>
    { pageIndex := p.1, markdown := p.2.text, images := p.2.images.getD [] })

/-- Go `(c *Client) OCRFile(filePath, opts)`: every failure is encoded in
the returned `DocumentOCRResult`, never thrown. -/
def OCRFile (c : Client) (filePath : String) (opts : OCROptions) (env : OCREnv) :
    DocumentOCRResult :=
  if env.fileExists = false then
    { success := false, pages := [],
      errorMessage := "File not found: " ++ filePath, logId := "" }
  else if c.IsConfigured = false then
    { success := false, pages := [],
      errorMessage := "PaddleOCR is not configured. Run 'paddleocr-cli configure' first.",
      logId := "" }
  else
    match env.readFile with
    | .error e =>
      { success := false, pages := [],
        errorMessage := "Failed to read file: " ++ e, logId := "" }
    | .ok _fileData =>
      match env.marshal with
      | .error e =>
        { success := false, pages := [],
          errorMessage := "Failed to marshal payload: " ++ e, logId := "" }
      | .ok _ =>
        match env.newRequest with
        | .error e =>
          { success := false, pages := [],
            errorMessage := "Failed to create request: " ++ e, logId := "" }
        | .ok _ =>
          match env.http with
          | .error e =>
            { success := false, pages := [],
              errorMessage := "Request failed: " ++ e, logId := "" }
          | .ok resp =>
            match resp.body with
            | .error e =>
              { success := false, pages := [],
                errorMessage := "Failed to read response: " ++ e, logId := "" }
            | .ok body =>
              if resp.statusCode ≠ 200 then
                { success := false, pages := [],
                  errorMessage :=
                    "HTTP " ++ toString resp.statusCode ++ ": " ++ resp.status
                      ++ "\n" ++ body,
                  logId := "" }
              else
                match env.parse body with
                | .error e =>
                  { success := false, pages := [],
                    errorMessage := "Invalid JSON response: " ++ e, logId := "" }
                | .ok response =>
                  if response.errorCode ≠ 0 then
                    { success := false, pages := [],
                      errorMessage :=
                        "API error (" ++ toString response.errorCode ++ "): "
                          ++ response.errorMsg,
                      logId := response.logId }
                  else
                    { success := true,
                      pages := buildPages response.layoutParsingResults,
                      errorMessage := "", logId := response.logId }

/-! ## Helper lemmas -/

/-- A string of length zero is the empty string. -/
theorem eq_empty_of_length_eq_zero (s : String) (h : s.length = 0) : s = "" := by
  cases s with
  | mk data =>
    cases data with
    | nil => rfl
    | cons c cs => simp [String.length] at h

/-- A string with a non-empty prefix is non-empty. -/
theorem append_ne_empty_of_left (p s : String) (hp : p ≠ "") : p ++ s ≠ "" := by
  intro h
  have hl := congrArg String.length h
  rw [String.length_append, String.length_empty] at hl
  exact hp (eq_empty_of_length_eq_zero p (by omega))

/-- The recognized image extensions of the `switch` in `getFileType`. -/
def imageExtensions : List String :=
  [".png", ".jpg", ".jpeg", ".bmp", ".tiff", ".tif", ".webp"]

/-- Go `getFileType` collapses to a single test on the lowercased
extension, because the image arms and the default arm coincide. -/
theorem getFileType_eq_ite (path : String) :
    getFileType path =
      if stringsToLower (filepathExt path) = ".pdf" then .pdf else .image := by
  unfold getFileType
  split <;> simp_all

/-- The spec's markdown aggregation rule, stated as written: the texts
in sequence order with the fixed separator between consecutive pages. -/
def sepJoinSpec : List String → String
  | [] => ""
  | [x] => x
  | x :: y :: xs => x ++ "\n\n---\n\n" ++ sepJoinSpec (y :: xs)

/-- Tail of a separator join: every element prefixed by the separator. -/
def joinTail (sep : String) : List String → String
  | [] => ""
  | x :: xs => sep ++ x ++ joinTail sep xs

theorem foldl_append_joinTail (sep : String) (xs : List String) (b : String) :
    xs.foldl (fun acc s => acc ++ sep ++ s) b = b ++ joinTail sep xs := by
  induction xs generalizing b with
  | nil => simp [joinTail]
  | cons x xs ih =>
    simp only [List.foldl_cons, joinTail, ih]
    simp [String.append_assoc]

theorem sepJoinSpec_cons (x : String) (xs : List String) :
    sepJoinSpec (x :: xs) = x ++ joinTail "\n\n---\n\n" xs := by
  induction xs generalizing x with
  | nil => simp [sepJoinSpec, joinTail]
  | cons y ys ih =>
    simp only [sepJoinSpec, joinTail, ih]
    simp [String.append_assoc]

/-- Go `strings.Join` with the page separator implements the spec's rule. -/
theorem stringsJoin_eq_sepJoinSpec (l : List String) :
    stringsJoin l "\n\n---\n\n" = sepJoinSpec l := by
  cases l with
  | nil => rfl
  | cons x xs =>
    simp only [stringsJoin, foldl_append_joinTail, sepJoinSpec_cons]

/-! ## Claim theorems -/

/-- Claim C6: `getFileType` is determined purely by the lowercased extension:
a lowercased extension among the recognized image extensions yields
Image, `.pdf` (any case) yields PDF, and any other or missing extension
yields Image. -/
theorem getFileType_by_lowercased_extension (path : String) :
    (stringsToLower (filepathExt path) ∈ imageExtensions →
       getFileType path = .image) ∧
    (stringsToLower (filepathExt path) = ".pdf" → getFileType path = .pdf) ∧
    (stringsToLower (filepathExt path) ∉ imageExtensions →
       stringsToLower (filepathExt path) ≠ ".pdf" → getFileType path = .image) := by
  rw [getFileType_eq_ite]
  refine ⟨fun hmem => ?_, fun hpdf => ?_, fun _ hne => ?_⟩
  · have : stringsToLower (filepathExt path) ≠ ".pdf" := by
      intro h
      rw [h] at hmem
      simp [imageExtensions] at hmem
    simp [this]
  · simp [hpdf]
  · simp [hne]

theorem getFileType_by_lowercased_extension_witness :
    getFileType "photo.JPG" = FileType.image ∧
    getFileType "doc.PDF" = FileType.pdf ∧
    getFileType "archive.zip" = FileType.image ∧
    getFileType "noextension" = FileType.image :=
  ⟨(getFileType_by_lowercased_extension "photo.JPG").1 (by decide),
   (getFileType_by_lowercased_extension "doc.PDF").2.1 (by decide),
   (getFileType_by_lowercased_extension "archive.zip").2.2 (by decide) (by decide),
   (getFileType_by_lowercased_extension "noextension").2.2 (by decide) (by decide)⟩

/-- Claim C7: `FullMarkdown` is exactly the pages' markdown texts in sequence
order joined by the fixed separator `"\n\n---\n\n"`; two pages yield
`A ++ sep ++ B`; zero pages yield the empty string. -/
theorem fullMarkdown_joins_pages :
    (∀ r : DocumentOCRResult,
       FullMarkdown r = sepJoinSpec (r.pages.map (fun page => page.markdown))) ∧
    (∀ r : DocumentOCRResult, ∀ a b : OCRResult, r.pages = [a, b] →
       FullMarkdown r = a.markdown ++ "\n\n---\n\n" ++ b.markdown) ∧
    (∀ r : DocumentOCRResult, r.pages = [] → FullMarkdown r = "") := by
  refine ⟨fun r => ?_, fun r a b hab => ?_, fun r h0 => ?_⟩
  · exact stringsJoin_eq_sepJoinSpec _
  · rw [FullMarkdown, hab, stringsJoin_eq_sepJoinSpec]
    simp [sepJoinSpec]
  · rw [FullMarkdown, h0]
    rfl

theorem fullMarkdown_joins_pages_witness :
    FullMarkdown
        { success := true,
          pages := [{ pageIndex := 0, markdown := "A", images := [] },
                    { pageIndex := 1, markdown := "B", images := [] }],
          errorMessage := "", logId := "" } = "A\n\n---\n\nB" ∧
    FullMarkdown
        { success := true, pages := [], errorMessage := "", logId := "" } = "" :=
  ⟨by
    rw [fullMarkdown_joins_pages.2.1 _
      { pageIndex := 0, markdown := "A", images := [] }
      { pageIndex := 1, markdown := "B", images := [] } rfl]
    decide,
   fullMarkdown_joins_pages.2.2 _ rfl⟩

/-! ## Concrete fixtures -/

/-- A filesystem with a cwd, a project root, a home and no files. -/
def emptyFS : FS :=
  { cwd := some "/work", projectRoot := "/proj", home := some "/home/u",
    files := fun _ => none }

/-- A filesystem where all three search-tier config files exist. -/
def fullFS : FS :=
  { emptyFS with
    files := fun p =>
      if p = "/work/.paddleocr_cli.yaml" then some (.str "cwd")
      else if p = "/proj/.paddleocr_cli.yaml" then some (.str "proj")
      else if p = "/home/u/.config/paddleocr_cli/config.yaml" then some (.str "user")
      else none }

/-- Claim C1 counterexample: loading an explicitly given path that does not
exist returns the default empty Configuration with no error, not a
propagated NotFound error. -/
theorem load_missing_explicit_path_counterexample :
    Load "/work/absent.yaml" emptyFS = Except.ok Config.New := by
  rfl

/-- Claim C1 (amended): for every explicitly given config path that does not
exist on the filesystem, `Load` swallows the not-exist condition and
returns the default empty Configuration without error; only read errors
other than not-exist and YAML parse failures propagate. -/
theorem load_missing_explicit_path_default (configPath : String) (fs : FS)
    (hne : configPath ≠ "") (hmiss : fs.files configPath = none) :
    Load configPath fs = Except.ok Config.New := by
  simp [Load, hne, hmiss]

theorem load_missing_explicit_path_default_witness :
    Load "/tmp/nothing.yaml" emptyFS = Except.ok Config.New :=
  load_missing_explicit_path_default "/tmp/nothing.yaml" emptyFS (by decide) rfl

/-- Claim C8: with all three search tiers present, `FindConfig` prefers the
current-directory file over the project-root file, the project-root
file over the user config path, and returns `""` (none) when none of
the three exists. -/
theorem findConfig_priority (fs : FS) (cwd home : String)
    (hc : fs.cwd = some cwd) (hh : fs.home = some home)
    (hp : fs.projectRoot ≠ "") :
    (fs.fileExists (joinPath cwd ConfigFilename) = true →
       FindConfig fs = joinPath cwd ConfigFilename) ∧
    (fs.fileExists (joinPath cwd ConfigFilename) = false →
     fs.fileExists (joinPath fs.projectRoot ConfigFilename) = true →
       FindConfig fs = joinPath fs.projectRoot ConfigFilename) ∧
    (fs.fileExists (joinPath cwd ConfigFilename) = false →
     fs.fileExists (joinPath fs.projectRoot ConfigFilename) = false →
     fs.fileExists (joinPath (joinPath home UserConfigDir) UserConfigFile) = true →
       FindConfig fs = joinPath (joinPath home UserConfigDir) UserConfigFile) ∧
    (fs.fileExists (joinPath cwd ConfigFilename) = false →
     fs.fileExists (joinPath fs.projectRoot ConfigFilename) = false →
     fs.fileExists (joinPath (joinPath home UserConfigDir) UserConfigFile) = false →
       FindConfig fs = "") := by
  refine ⟨fun h1 => ?_, fun h1 h2 => ?_, fun h1 h2 h3 => ?_, fun h1 h2 h3 => ?_⟩ <;>
    simp_all [FindConfig, firstExisting]

theorem findConfig_priority_witness :
    FindConfig fullFS = joinPath "/work" ConfigFilename :=
  (findConfig_priority fullFS "/work" "/home/u" rfl rfl (by decide)).1 (by decide)

/-- Decoding the encoded document recovers the configuration. -/
theorem yamlUnmarshal_yamlMarshal (c : Config) :
    yamlUnmarshal (yamlMarshal c) = some c := by
  obtain ⟨⟨su, at'⟩⟩ := c
  simp [yamlMarshal, yamlUnmarshal, lookupKey]

/-- Claim C9: `Save` to any explicit writable path followed by `Load` of that
path recovers a Configuration equal to the original, for every
`{server_url, access_token}` pair. -/
theorem save_load_roundtrip (c : Config) (path : String) (fs : FS) (fs' : FS)
    (hne : path ≠ "") (hsave : Save c path fs = Except.ok fs') :
    Load path fs' = Except.ok c := by
  rw [Save, if_neg hne] at hsave
  cases hsave
  simp [Load, hne, FS.write, yamlUnmarshal_yamlMarshal]

theorem save_load_roundtrip_witness :
    Load "/tmp/cfg.yaml"
        (emptyFS.write "/tmp/cfg.yaml"
          (yamlMarshal { paddleOCR := { serverURL := "https://ocr.example",
                                        accessToken := "tok123" } })) =
      Except.ok { paddleOCR := { serverURL := "https://ocr.example",
                                 accessToken := "tok123" } } :=
  save_load_roundtrip _ "/tmp/cfg.yaml" emptyFS _ (by decide) rfl

/-- Claim C10: every scope other than `"local"` and `"project"` — including
unrecognized values — falls through to the default branch and yields
the fixed user config path without error (given a resolvable home
directory); and `notFound` can only arise from the `"project"` scope. -/
theorem getSavePath_default_scope :
    (∀ (scope : String) (fs : FS) (home : String),
       scope ≠ "local" → scope ≠ "project" → fs.home = some home →
       GetSavePath scope fs =
         Except.ok (joinPath (joinPath home UserConfigDir) UserConfigFile)) ∧
    (∀ (scope : String) (fs : FS),
       GetSavePath scope fs = Except.error CfgError.notFound →
       scope = "project") := by
  constructor
  · intro scope fs home h1 h2 hh
    simp [GetSavePath, h1, h2, hh]
  · intro scope fs h
    by_cases h1 : scope = "local"
    · rw [GetSavePath, if_pos h1] at h
      cases hc : fs.cwd <;> simp [hc] at h
    · by_cases h2 : scope = "project"
      · exact h2
      · rw [GetSavePath, if_neg h1, if_neg h2] at h
        cases hh : fs.home <;> simp [hh] at h

theorem getSavePath_default_scope_witness :
    GetSavePath "banana" emptyFS =
      Except.ok (joinPath (joinPath "/home/u" UserConfigDir) UserConfigFile) :=
  getSavePath_default_scope.1 "banana" emptyFS "/home/u" (by decide) (by decide) rfl

/-! ## OCR client fixtures -/

/-- A fully configured client. -/
def clientOk : Client :=
  { config := { paddleOCR := { serverURL := "https://srv", accessToken := "tok" } } }

/-- Options with all flags off. -/
def defaultOpts : OCROptions :=
  { useDocOrientationClassify := false, useDocUnwarping := false,
    useChartRecognition := false, timeout := 0 }

/-- The spec's simulated success envelope: one page, text `"hi"`,
present empty image mapping. -/
def envelopeHi : Envelope :=
  { logId := "L1", errorCode := 0, errorMsg := "",
    layoutParsingResults := [{ text := "hi", images := some [] }] }

/-- A 200 response. -/
def respHi : HttpResponse :=
  { statusCode := 200, status := "200 OK", body := .ok "BODY" }

/-- Environment where every step succeeds and the server answers the
simulated success envelope. -/
def envHi : OCREnv :=
  { fileExists := true, readFile := .ok "DATA", marshal := .ok (),
    newRequest := .ok (), http := .ok respHi, parse := fun _ => .ok envelopeHi }

/-- The spec's simulated HTTP 500 with body `"boom"`. -/
def resp500 : HttpResponse :=
  { statusCode := 500, status := "500 Internal Server Error", body := .ok "boom" }

/-- Environment reaching the non-200 branch. -/
def env500 : OCREnv :=
  { envHi with http := .ok resp500, parse := fun _ => .error "unused" }

/-- Environment where the input file is missing. -/
def envNoFile : OCREnv := { envHi with fileExists := false }

/-- Environment where reading the input file fails. -/
def envReadErr : OCREnv := { envHi with readFile := .error "permission denied" }

/-! ## OCR claim theorems -/

/-- Claim C2: every `DocumentOCRResult` returned by `OCRFile` satisfies the
invariant: when `success` is false, `pages` is empty and the error
message is non-empty; when `success` is true, the error message is
empty. -/
theorem ocrFile_result_invariant (c : Client) (filePath : String)
    (opts : OCROptions) (env : OCREnv) :
    ((OCRFile c filePath opts env).success = false →
       (OCRFile c filePath opts env).pages = [] ∧
       (OCRFile c filePath opts env).errorMessage ≠ "") ∧
    ((OCRFile c filePath opts env).success = true →
       (OCRFile c filePath opts env).errorMessage = "") := by
  unfold OCRFile
  repeat' split
  all_goals first
    | exact ⟨fun hf => Bool.noConfusion hf, fun _ => rfl⟩
    | exact ⟨fun _ => ⟨rfl, by
        repeat apply append_ne_empty_of_left
        decide⟩,
      fun ht => Bool.noConfusion ht⟩

theorem ocrFile_result_invariant_witness :
    (OCRFile clientOk "doc.png" defaultOpts env500).pages = [] ∧
    (OCRFile clientOk "doc.png" defaultOpts env500).errorMessage ≠ "" :=
  (ocrFile_result_invariant clientOk "doc.png" defaultOpts env500).1 (by decide)

/-- Claim C3: the precondition checks run in the fixed order file existence,
then configuration state, then file read; the first failing check
yields its failed result for every value of the later environment
components (in particular, for every HTTP outcome — so no later check
and no request influences the result). -/
theorem ocrFile_precondition_order (c : Client) (filePath : String)
    (opts : OCROptions) (env : OCREnv) :
    (env.fileExists = false →
       OCRFile c filePath opts env =
         { success := false, pages := [],
           errorMessage := "File not found: " ++ filePath, logId := "" }) ∧
    (env.fileExists = true → c.IsConfigured = false →
       OCRFile c filePath opts env =
         { success := false, pages := [],
           errorMessage :=
             "PaddleOCR is not configured. Run 'paddleocr-cli configure' first.",
           logId := "" }) ∧
    (∀ e : String, env.fileExists = true → c.IsConfigured = true →
       env.readFile = Except.error e →
       OCRFile c filePath opts env =
         { success := false, pages := [],
           errorMessage := "Failed to read file: " ++ e, logId := "" }) := by
  refine ⟨fun h1 => ?_, fun h1 h2 => ?_, fun e h1 h2 h3 => ?_⟩ <;>
    simp [OCRFile, *]

theorem ocrFile_precondition_order_witness :
    OCRFile clientOk "missing.png" defaultOpts envNoFile =
      { success := false, pages := [],
        errorMessage := "File not found: " ++ "missing.png", logId := "" } ∧
    OCRFile { config := Config.New } "doc.png" defaultOpts envHi =
      { success := false, pages := [],
        errorMessage :=
          "PaddleOCR is not configured. Run 'paddleocr-cli configure' first.",
        logId := "" } ∧
    OCRFile clientOk "doc.png" defaultOpts envReadErr =
      { success := false, pages := [],
        errorMessage := "Failed to read file: " ++ "permission denied",
        logId := "" } :=
  ⟨(ocrFile_precondition_order clientOk "missing.png" defaultOpts envNoFile).1 rfl,
   (ocrFile_precondition_order { config := Config.New } "doc.png" defaultOpts
      envHi).2.1 rfl rfl,
   (ocrFile_precondition_order clientOk "doc.png" defaultOpts envReadErr).2.2
      "permission denied" rfl rfl rfl⟩

theorem buildPages_length (rs : List MarkdownBlock) :
    (buildPages rs).length = rs.length := by
  simp [buildPages]

theorem buildPages_getElem? (rs : List MarkdownBlock) (i : Nat)
    (h : i < rs.length) :
    (buildPages rs)[i]? =
      some { pageIndex := i, markdown := rs[i].text,
             images := (rs[i].images).getD [] } := by
  have hb : i < (buildPages rs).length := by
    rw [buildPages_length]
    exact h
  rw [List.getElem?_eq_getElem hb]
  simp [buildPages, List.getElem_enum]

/-- Claim C4: a 200 response whose envelope parses with `errorCode = 0`
yields a successful result carrying `logId`, where the i-th entry of
`layoutParsingResults` becomes the i-th page with `pageIndex = i`, its
`markdown.text`, and its `markdown.images` normalized to an empty
mapping when absent. -/
theorem ocrFile_success_mapping (c : Client) (filePath : String)
    (opts : OCROptions) (env : OCREnv) (d : String) (resp : HttpResponse)
    (body : String) (response : Envelope)
    (h1 : env.fileExists = true) (h2 : c.IsConfigured = true)
    (h3 : env.readFile = Except.ok d) (h4 : env.marshal = Except.ok ())
    (h5 : env.newRequest = Except.ok ()) (h6 : env.http = Except.ok resp)
    (h7 : resp.statusCode = 200) (h8 : resp.body = Except.ok body)
    (h9 : env.parse body = Except.ok response)
    (h10 : response.errorCode = 0) :
    OCRFile c filePath opts env =
      { success := true, pages := buildPages response.layoutParsingResults,
        errorMessage := "", logId := response.logId } ∧
    (OCRFile c filePath opts env).pages.length
        = response.layoutParsingResults.length ∧
    ∀ (i : Nat) (hr : i < response.layoutParsingResults.length),
      (OCRFile c filePath opts env).pages[i]? =
        some { pageIndex := i,
               markdown := (response.layoutParsingResults[i]).text,
               images :=
                 ((response.layoutParsingResults[i]).images).getD [] } := by
  have hres : OCRFile c filePath opts env =
      { success := true, pages := buildPages response.layoutParsingResults,
        errorMessage := "", logId := response.logId } := by
    simp [OCRFile, h1, h2, h3, h4, h5, h6, h7, h8, h9, h10]
  refine ⟨hres, ?_, ?_⟩
  · rw [hres]
    exact buildPages_length _
  · intro i hr
    rw [hres]
    exact buildPages_getElem? _ i hr

theorem ocrFile_success_mapping_witness :
    OCRFile clientOk "doc.png" defaultOpts envHi =
      { success := true,
        pages := [{ pageIndex := 0, markdown := "hi", images := [] }],
        errorMessage := "", logId := "L1" } := by
  rw [(ocrFile_success_mapping clientOk "doc.png" defaultOpts envHi "DATA"
      respHi "BODY" envelopeHi rfl rfl rfl rfl rfl rfl rfl rfl rfl rfl).1]
  decide

/-- Claim C5: a non-200 HTTP response yields a failed result whose error
message embeds the numeric status code, the status text and the raw
body; in particular each of them occurs as an infix of the message. -/
theorem ocrFile_non200_status (c : Client) (filePath : String)
    (opts : OCROptions) (env : OCREnv) (d : String) (resp : HttpResponse)
    (body : String)
    (h1 : env.fileExists = true) (h2 : c.IsConfigured = true)
    (h3 : env.readFile = Except.ok d) (h4 : env.marshal = Except.ok ())
    (h5 : env.newRequest = Except.ok ()) (h6 : env.http = Except.ok resp)
    (h7 : resp.body = Except.ok body) (h8 : resp.statusCode ≠ 200) :
    OCRFile c filePath opts env =
      { success := false, pages := [],
        errorMessage := "HTTP " ++ toString resp.statusCode ++ ": "
          ++ resp.status ++ "\n" ++ body,
        logId := "" } ∧
    (toString resp.statusCode).data
        <:+: (OCRFile c filePath opts env).errorMessage.data ∧
    resp.status.data <:+: (OCRFile c filePath opts env).errorMessage.data ∧
    body.data <:+: (OCRFile c filePath opts env).errorMessage.data := by
  have hres : OCRFile c filePath opts env =
      { success := false, pages := [],
        errorMessage := "HTTP " ++ toString resp.statusCode ++ ": "
          ++ resp.status ++ "\n" ++ body,
        logId := "" } := by
    simp [OCRFile, h1, h2, h3, h4, h5, h6, h7, h8]
  refine ⟨hres, ?_, ?_, ?_⟩ <;> rw [hres]
  · exact ⟨"HTTP ".data, (": " ++ resp.status ++ "\n" ++ body).data,
      by simp [String.data_append]⟩
  · exact ⟨("HTTP " ++ toString resp.statusCode ++ ": ").data,
      ("\n" ++ body).data, by simp [String.data_append]⟩
  · exact ⟨("HTTP " ++ toString resp.statusCode ++ ": " ++ resp.status
        ++ "\n").data, [], by simp [String.data_append]⟩

theorem ocrFile_non200_status_witness :
    (OCRFile clientOk "doc.png" defaultOpts env500).success = false ∧
    "500".data <:+: (OCRFile clientOk "doc.png" defaultOpts env500).errorMessage.data ∧
    "boom".data <:+: (OCRFile clientOk "doc.png" defaultOpts env500).errorMessage.data :=
  ⟨by
    rw [(ocrFile_non200_status clientOk "doc.png" defaultOpts env500 "DATA"
        resp500 "boom" rfl rfl rfl rfl rfl rfl rfl (by decide)).1],
   by decide, by decide⟩

end PaddleOCR
